import Mathlib

/-!
Shallow embedding of the File-to-Database loader (`src/app.py`) and proofs
about its core logic: column resolution (`get_column_names`), chunked CSV
reading (`read_csv`), table appends (`to_sql`), and the per-dataset loading
loop (`db_loader`), together with the dataset-selector resolution performed
by `main`.

Modelling conventions:
  - A CSV row is the list of its comma-separated field strings.
  - The filesystem is an association list from path to `Option (List String)`
    of raw lines; `some none` models a path that directory listing (glob)
    reports but that cannot be opened when the reader starts (the
    file-not-found-at-open case the code handles explicitly).
  - Python exceptions are modelled with `Except` / explicit error values:
    `read_csv` returns the list of (index, chunk) pairs the generator yields
    before terminating, together with the error (if any) that escapes it.
  - The external database is an association list from table name to row
    lists; `to_sql` with `if_exists="append"` is `dbAppend`.  Database write
    failures are external events, modelled by a caller-supplied oracle
    telling which (file, chunk-index) writes raise `DatabaseError`.
  - The pandas chunked reader (`pd.read_csv(..., names=cols, chunksize=c)`)
    is modelled as: split the file's rows into consecutive chunks of `c`
    rows; a chunk raises `ParserError` when some of its rows has more
    fields than the supplied column names (the tokenizer's
    "saw more fields than expected" error); chunks before the first bad one
    are yielded normally, matching the lazy per-chunk tokenisation.
-/

/-- A parsed CSV row: the list of its field strings. -/
abbrev Row := List String

/-- One database row: column name / value pairs, in column order. -/
abbrev DBRow := List (String × String)

/-- The external database: table name to its rows, in insertion order. -/
abbrev DB := List (String × List DBRow)

/-- The filesystem: path to file content (`none` inside the option models a
path that glob listed but that cannot be opened when read starts). -/
abbrev FileSys := List (String × Option (List String))

/-- One column descriptor from `schemas.json`; the two fields the code reads
are optional, modelling the duck-typed dict whose keys may be absent. -/
structure ColDesc where
  column_name : Option String
  column_position : Option Int
deriving DecidableEq

/-- The schema catalog: dataset name to its column descriptors, in the JSON
document's key order (Python dicts preserve insertion order). -/
abbrev Catalog := List (String × List ColDesc)

/-- Python dict / mapping lookup on an association list (first match). -/
def alookup {β : Type} : List (String × β) → String → Option β
  | [], _ => none
  | (k, v) :: rest, key => if k = key then some v else alookup rest key

/-! ### Column Resolver: `get_column_names` (src/app.py lines 164-183) -/

/-- CPython's `sorted(descs, key=lambda x: x[sorting_key])` first evaluates
the key for every element, left to right; the first descriptor missing
`column_position` raises `KeyError("column_position")`.  On success, each
descriptor is paired with its sort key. -/
def extractPositions : List ColDesc → Except String (List (Int × ColDesc))
  | [] => .ok []
  | d :: rest =>
    match d.column_position with
    | none => .error "column_position"
    | some p => (extractPositions rest).map (fun l => (p, d) :: l)

/-- Comparison used by `sorted(..., key=lambda x: x[sorting_key])`:
ascending by the extracted sort key. -/
def posLE (a b : Int × ColDesc) : Prop := a.1 ≤ b.1

instance : DecidableRel posLE := fun a b => inferInstanceAs (Decidable (a.1 ≤ b.1))

instance : IsTotal (Int × ColDesc) posLE := ⟨fun a b => Int.le_total a.1 b.1⟩

instance : IsTrans (Int × ColDesc) posLE := ⟨fun _ _ _ h h2 => le_trans h h2⟩

/-- The comprehension `[d["column_name"] for d in sorted_schema]` walks the
sorted descriptors; the first one missing `column_name` raises
`KeyError("column_name")`.  We keep the sort key alongside the name so that
ordering statements can speak about positions. -/
def extractNames : List (Int × ColDesc) → Except String (List (Int × String))
  | [] => .ok []
  | (p, d) :: rest =>
    match d.column_name with
    | none => .error "column_name"
    | some n => (extractNames rest).map (fun l => (p, n) :: l)

/-- The (position, name) pairs of dataset `ds_name`, sorted ascending by
position, with the error behaviour of `get_column_names`: `schemas[ds_name]`
raises `KeyError(ds_name)` when the dataset is absent; then the sort key is
extracted, the list stably sorted, and names projected in sorted order. -/
def sortedDescs (schemas : Catalog) (ds_name : String) :
    Except String (List (Int × String)) :=
  match alookup schemas ds_name with
  | none => .error ds_name
  | some descs => do
    let keyed ← extractPositions descs
    extractNames (List.insertionSort posLE keyed)

/-- `get_column_names` (src/app.py lines 164-183): the sorted column names of
a dataset, or the `KeyError` payload when the dataset or a required field is
missing. -/
def get_column_names (schemas : Catalog) (ds_name : String) :
    Except String (List String) :=
  (sortedDescs schemas ds_name).map (fun l => l.map Prod.snd)

/-! ### Chunked File Reader: `read_csv` (src/app.py lines 109-140) -/

/-- Errors escaping the `read_csv` generator, one constructor per re-raise
branch of its `try`/`except` chain: `FileNotFoundError`, `ParserError`, and
the catch-all `Exception` with its generic message. -/
inductive ReadErr where
  | fileNotFound (path : String)
  | parserError (path : String)
  | genericExc (msg : String)
deriving DecidableEq

/-- One yielded pandas chunk: the column names assigned via `names=` and the
chunk's parsed rows. -/
structure DataFrame where
  cols : List String
  rows : List Row
deriving DecidableEq

/-- Split a character list at commas (the comma-delimited, quoting-free file
format the spec assumes). -/
def splitComma : List Char → List String
  | [] => [""]
  | ch :: rest =>
    if ch = ',' then "" :: splitComma rest
    else
      match splitComma rest with
      | [] => [String.mk [ch]]
      | f :: fs => String.mk (ch :: f.data) :: fs

/-- Parse one raw line into its fields. -/
def parseRow (line : String) : Row := splitComma line.data

/-- Worker for `chunkList`, structurally recursive on a fuel argument (any
bound on the list length) so that it evaluates by kernel reduction. -/
def chunkListF {α : Type} (c : Nat) : Nat → List α → List (List α)
  | _, [] => []
  | 0, _ :: _ => []
  | fuel + 1, x :: xs => (x :: xs.take (c - 1)) :: chunkListF c fuel (xs.drop (c - 1))

/-- Split a list into consecutive chunks of `c` elements (the final chunk may
be shorter).  Mirrors pandas `chunksize=c`; only meaningful for `c > 0`. -/
def chunkList {α : Type} (c : Nat) (l : List α) : List (List α) :=
  chunkListF c l.length l

theorem chunkListF_fuel {α : Type} (c : Nat) :
    ∀ (fuel : Nat) (l : List α), l.length ≤ fuel →
      chunkListF c fuel l = chunkListF c l.length l
  | 0, [], _ => rfl
  | 0, x :: xs, h => by simp at h
  | fuel + 1, [], _ => rfl
  | fuel + 1, x :: xs, h => by
    have h2 : xs.length ≤ fuel := by
      simp only [List.length_cons] at h
      omega
    have hd : (xs.drop (c - 1)).length ≤ xs.length := by
      simp [List.length_drop]
    rw [chunkListF, List.length_cons, chunkListF,
      chunkListF_fuel c fuel (xs.drop (c - 1)) (by omega),
      chunkListF_fuel c xs.length (xs.drop (c - 1)) (by omega)]

/-- A chunk fails to tokenize when some row carries more fields than the
`names=` list supplies (pandas: "Error tokenizing data ... saw N fields"). -/
def chunkBad (cols : List String) (chunk : List Row) : Bool :=
  chunk.any (fun r => decide (cols.length < r.length))

/-- Walk the chunks the way the pandas reader serves them: chunks are
tokenized lazily one at a time, so every chunk before the first bad one is
yielded (with its running index), then the bad chunk raises `ParserError`. -/
def emitChunks (path : String) (cols : List String) :
    Nat → List (List Row) → List (Nat × DataFrame) × Option ReadErr
  | _, [] => ([], none)
  | idx, ch :: rest =>
    if chunkBad cols ch then ([], some (.parserError path))
    else
      let (ys, e) := emitChunks path cols (idx + 1) rest
      ((idx, ⟨cols, ch⟩) :: ys, e)

/-- The lines of an openable file, `none` when opening raises
`FileNotFoundError`. -/
def readLines (fs : FileSys) (path : String) : Option (List String) :=
  match alookup fs path with
  | some (some lines) => some lines
  | _ => none

/-- The generic message of the catch-all branch of `read_csv`. -/
def genericReadMsg (e : String) : String :=
  "An unhandled exception occurred while reading data: " ++ e

/-- Rendering of a Python `KeyError` payload when interpolated into the
catch-all message (the key, quoted; quotes elided in this model). -/
def keyErrorStr (k : String) : String := "KeyError " ++ k

/-- `read_csv` (src/app.py lines 109-140) as the pair (chunks yielded by the
generator, error escaping it, if any).  Faithful ordering: the column lookup
runs first inside the `try` (so a schema `KeyError` is wrapped by the
catch-all `except Exception` branch into a plain `Exception` with the generic
message), then the file is opened (`FileNotFoundError` is re-raised as
`FileNotFoundError`), then chunks are served lazily with `ParserError`
re-raised at the first bad chunk. -/
def read_csv (fs : FileSys) (csv_path : String) (schema : Catalog)
    (ds_name : String) (chunksize : Nat) :
    List (Nat × DataFrame) × Option ReadErr :=
  match get_column_names schema ds_name with
  | .error k => ([], some (.genericExc (genericReadMsg (keyErrorStr k))))
  | .ok cols =>
    match readLines fs csv_path with
    | none => ([], some (.fileNotFound csv_path))
    | some lines =>
      emitChunks csv_path cols 0 (chunkList chunksize (lines.map parseRow))

/-! ### Table Writer: `to_sql` (src/app.py lines 143-162) -/

/-- `DataFrame.to_sql(..., if_exists="append")`: append `rows` to table `t`,
creating the table when absent; no existing row is touched. -/
def dbAppend (db : DB) (t : String) (rows : List DBRow) : DB :=
  match db with
  | [] => [(t, rows)]
  | (k, v) :: rest =>
    if k = t then (k, v ++ rows) :: rest else (k, v) :: dbAppend rest t rows

/-- The rows of a table (empty when the table does not exist). -/
def tableRows (db : DB) (t : String) : List DBRow :=
  (alookup db t).getD []

/-- A DataFrame's rows as database rows: each value labelled with its column
name, in column order. -/
def dfToRows (df : DataFrame) : List DBRow :=
  df.rows.map (fun r => df.cols.zip r)

/-- `to_sql` (src/app.py lines 143-162): appends the chunk and returns
`True`, or re-raises `DatabaseError`.  `dbFail` is the external database's
verdict for this write (connectivity, constraint violation, ...). -/
def to_sql (ds_name : String) (df : DataFrame) (db : DB) (dbFail : Bool) :
    Except String (DB × Bool) :=
  if dbFail then .error "Error loading data to database"
  else .ok (dbAppend db ds_name (dfToRows df), true)

/-! ### Dataset Loader: `db_loader` (src/app.py lines 76-106) -/

/-- Observable state of one `db_loader` run: the database plus the counts of
successful chunk writes and of chunk errors logged by the `except` branch. -/
structure LoadState where
  db : DB
  succWrites : Nat
  errLogs : Nat
deriving DecidableEq

/-- Errors escaping `db_loader`: the `ValueError` raised when glob finds no
files, or an error of the `read_csv` generator, which the per-chunk
`try`/`except` does not cover and which therefore propagates. -/
inductive LoadErr where
  | noSourceFiles (ds_name : String)
  | readAbort (e : ReadErr)
deriving DecidableEq

/-- `pre` is a leading segment of `s`. -/
def listStartsWith : List Char → List Char → Bool
  | _, [] => true
  | [], _ :: _ => false
  | a :: as, b :: bs => a = b && listStartsWith as bs

/-- `glob.glob(f"{src_base_dir}/{ds_name}/part-*")`: the paths below
`base/ds/` whose name begins with `part-` (`*` does not cross a path
separator), in the filesystem's listing order. -/
def globFiles (fs : FileSys) (base ds : String) : List String :=
  (fs.filter (fun e =>
    listStartsWith e.1.data (base ++ "/" ++ ds ++ "/part-").data &&
      !(e.1.data.drop (base ++ "/" ++ ds ++ "/part-").data.length).contains '/')).map
    Prod.fst

/-- The inner loop body of `db_loader` over the chunks one file yielded: each
write sits in `try: to_sql ... except Exception: log; continue`, so a failed
write increments the error log count and the loop continues with the next
chunk. -/
def processChunks (ds_name file : String) (failSet : String → Nat → Bool) :
    List (Nat × DataFrame) → LoadState → LoadState
  | [], st => st
  | (idx, df) :: rest, st =>
    match to_sql (ds_name ++ "_test") df st.db (failSet file idx) with
    | .ok (db2, _) =>
      processChunks ds_name file failSet rest
        { st with db := db2, succWrites := st.succWrites + 1 }
    | .error _ =>
      processChunks ds_name file failSet rest
        { st with errLogs := st.errLogs + 1 }

/-- The file loop of `db_loader`: for each file, drive the `read_csv`
generator; chunks it yields are processed with per-write isolation, but an
error escaping the generator is not caught anywhere in `db_loader` and
aborts the whole loop. -/
def processFiles (fs : FileSys) (schemas : Catalog) (ds_name : String)
    (chunksize : Nat) (failSet : String → Nat → Bool) :
    List String → LoadState → LoadState × Option ReadErr
  | [], st => (st, none)
  | f :: rest, st =>
    let step := read_csv fs f schemas ds_name chunksize
    let st2 := processChunks ds_name f failSet step.1 st
    match step.2 with
    | some e => (st2, some e)
    | none => processFiles fs schemas ds_name chunksize failSet rest st2

/-- `db_loader` (src/app.py lines 76-106): glob the dataset's files, raise
`ValueError` when none are found, otherwise run the file loop.  `db0` is the
external database's state when the run starts. -/
def db_loader (fs : FileSys) (schemas : Catalog) (ds_name base : String)
    (chunksize : Nat) (failSet : String → Nat → Bool) (db0 : DB) :
    LoadState × Option LoadErr :=
  let files := globFiles fs base ds_name
  if files.isEmpty then
    ({ db := db0, succWrites := 0, errLogs := 0 }, some (.noSourceFiles ds_name))
  else
    let run := processFiles fs schemas ds_name chunksize failSet files
      { db := db0, succWrites := 0, errLogs := 0 }
    (run.1, run.2.map .readAbort)

/-! ### Run Orchestrator: dataset selection in `main` (src/app.py lines 62-73) -/

/-- The `ds_names` argument of `main`: a single name, a list of names, or
`None`. -/
inductive DsSelector where
  | single (s : String)
  | multi (l : List String)
  | absent

/-- Python truthiness of the selector: `not ds_names` holds for `None`, the
empty string, and the empty list. -/
def selectorFalsy : DsSelector → Bool
  | .single s => s = ""
  | .multi l => l.isEmpty
  | .absent => true

/-- Lines 62-73 of `main`: when the selector is falsy, every dataset of the
catalog is loaded, in catalog iteration order; otherwise exactly the given
name(s), in the given order. -/
def resolve_ds_names (schemas : Catalog) (sel : DsSelector) : List String :=
  if selectorFalsy sel then schemas.map Prod.fst
  else
    match sel with
    | .single s => [s]
    | .multi l => l
    | .absent => []

/-! ### Lemmas about chunking -/

theorem chunkList_nil {α : Type} (c : Nat) : chunkList c ([] : List α) = [] :=
  rfl

theorem chunkList_cons {α : Type} (c : Nat) (x : α) (xs : List α) :
    chunkList c (x :: xs) =
      (x :: xs.take (c - 1)) :: chunkList c (xs.drop (c - 1)) := by
  rw [chunkList, List.length_cons, chunkListF,
    chunkListF_fuel c xs.length (xs.drop (c - 1)) (by simp [List.length_drop])]
  rfl

/-- Concatenating the chunks reproduces the original list. -/
theorem chunkList_flatten {α : Type} (c : Nat) :
    (l : List α) → (chunkList c l).flatten = l
  | [] => rfl
  | x :: xs => by
    rw [chunkList_cons, List.flatten_cons, chunkList_flatten c (xs.drop (c - 1))]
    simp [List.take_append_drop]
termination_by l => l.length
decreasing_by simp [List.length_drop]; omega

/-- The number of chunks is the ceiling of length over chunk size. -/
theorem chunkList_length {α : Type} (c : Nat) (hc : 0 < c) :
    (l : List α) → (chunkList c l).length = (l.length + c - 1) / c
  | [] => by
    simp only [chunkList_nil, List.length_nil]
    exact (Nat.div_eq_of_lt (by omega)).symm
  | x :: xs => by
    rw [chunkList_cons]
    have ih := chunkList_length c hc (xs.drop (c - 1))
    simp only [List.length_cons, ih, List.length_drop]
    obtain ⟨k, rfl⟩ : ∃ k, c = k + 1 := ⟨c - 1, by omega⟩
    simp only [Nat.add_sub_cancel]
    rcases le_or_lt k xs.length with h | h
    · have h1 : xs.length - k + (k + 1) - 1 = xs.length := by omega
      have h2 : xs.length + 1 + (k + 1) - 1 = xs.length + (k + 1) := by omega
      rw [h1, h2, Nat.add_div_right _ (by omega)]
    · have h1 : xs.length - k + (k + 1) - 1 = k := by omega
      have h2 : xs.length + 1 + (k + 1) - 1 = xs.length + (k + 1) := by omega
      rw [h1, h2, Nat.add_div_right _ (by omega), Nat.div_eq_of_lt (by omega),
        Nat.div_eq_of_lt (by omega)]
termination_by l => l.length
decreasing_by simp [List.length_drop]; omega

/-- Chunk-size discipline: every entry equals `c` except the final one,
which equals `last`. -/
def sizesOk (c last : Nat) : List Nat → Prop
  | [] => True
  | [n] => n = last
  | n :: m :: rest => n = c ∧ sizesOk c last (m :: rest)

theorem sizesOk_cons (c last n : Nat) (ms : List Nat) (hms : ms ≠ [])
    (h1 : n = c) (h2 : sizesOk c last ms) : sizesOk c last (n :: ms) := by
  cases ms with
  | nil => exact absurd rfl hms
  | cons m rest => exact ⟨h1, h2⟩

/-- Every chunk has exactly `c` rows except the last, which has
`len mod c` rows (`c` when `len mod c = 0`). -/
theorem chunkList_sizesOk {α : Type} (c : Nat) (hc : 0 < c) :
    (l : List α) →
      sizesOk c (if l.length % c = 0 then c else l.length % c)
        ((chunkList c l).map List.length)
  | [] => trivial
  | x :: xs => by
    rw [chunkList_cons]
    by_cases hd : xs.drop (c - 1) = []
    · have hle : xs.length ≤ c - 1 := by
        have := congrArg List.length hd
        simp [List.length_drop] at this
        omega
      rw [hd, chunkList_nil]
      have hchunklen : (x :: xs.take (c - 1)).length = xs.length + 1 := by
        simp [List.length_take]
        omega
      rw [List.map_cons, List.map_nil, hchunklen]
      show xs.length + 1 = if (x :: xs).length % c = 0 then c else (x :: xs).length % c
      simp only [List.length_cons]
      rcases Nat.eq_or_lt_of_le (show xs.length + 1 ≤ c by omega) with he | hlt
      · have h0 : (xs.length + 1) % c = 0 := by rw [he]; exact Nat.mod_self _
        rw [h0, if_pos rfl]
        omega
      · have h0 : (xs.length + 1) % c = xs.length + 1 := Nat.mod_eq_of_lt hlt
        rw [h0, if_neg (by omega)]
    · have hgt : c - 1 < xs.length := by
        rcases Nat.lt_or_ge (c - 1) xs.length with h | h
        · exact h
        · exact absurd (List.drop_eq_nil_of_le h) hd
      have ih := chunkList_sizesOk c hc (xs.drop (c - 1))
      have hmodeq : (xs.drop (c - 1)).length % c = (x :: xs).length % c := by
        simp only [List.length_drop, List.length_cons]
        have : xs.length + 1 = (xs.length - (c - 1)) + c := by omega
        rw [this, Nat.add_mod_right]
      rw [List.map_cons]
      refine sizesOk_cons _ _ _ _ ?_ ?_ ?_
      · obtain ⟨y, ys, hys⟩ := List.exists_cons_of_ne_nil hd
        rw [hys, chunkList_cons]
        simp
      · simp [List.length_take]
        omega
      · rw [show ((x :: xs).length % c = (xs.drop (c - 1)).length % c) from hmodeq.symm]
        exact ih
termination_by l => l.length
decreasing_by simp [List.length_drop]; omega

/-- When every chunk tokenizes, the reader yields all chunks with
consecutive indices starting at the given one, and no error escapes. -/
theorem emitChunks_all_good (path : String) (cols : List String) :
    ∀ (chunks : List (List Row)) (i : Nat),
      (∀ ch ∈ chunks, chunkBad cols ch = false) →
      emitChunks path cols i chunks =
        ((List.range' i chunks.length).zip
          (chunks.map (fun ch => DataFrame.mk cols ch)), none)
  | [], i, _ => by simp [emitChunks]
  | ch :: rest, i, h => by
    have hch : chunkBad cols ch = false := h ch (by simp)
    have ih := emitChunks_all_good path cols rest (i + 1)
      (fun x hx => h x (by simp [hx]))
    simp [emitChunks, hch, ih, List.range'_succ, List.length_cons]

/-- Rows of members of `chunkList` come from the original list. -/
theorem mem_of_mem_chunkList {α : Type} (c : Nat) (l : List α) (ch : List α)
    (a : α) (hch : ch ∈ chunkList c l) (ha : a ∈ ch) : a ∈ l := by
  rw [← chunkList_flatten c l]
  exact List.mem_flatten.mpr ⟨ch, hch, ha⟩

/-- Claim C2: for every well-formed comma-delimited file with R rows and
every chunk size C > 0, the Chunked File Reader yields exactly ceil(R/C)
(index, chunk) pairs with indices 0..ceil(R/C)-1 in file order, every chunk
has exactly C rows except possibly the last (which has R mod C rows, or C
if R mod C = 0), and concatenating the chunks' rows in index order
reproduces the file's rows in original order. -/
theorem read_csv_chunking
    (fs : FileSys) (path : String) (schemas : Catalog) (ds : String) (c : Nat)
    (cols : List String) (lines : List String)
    (hc : 0 < c)
    (hcols : get_column_names schemas ds = Except.ok cols)
    (hfile : readLines fs path = some lines)
    (hwf : ∀ line ∈ lines, (parseRow line).length ≤ cols.length) :
    read_csv fs path schemas ds c =
      ((List.range (chunkList c (lines.map parseRow)).length).zip
        ((chunkList c (lines.map parseRow)).map (fun ch => DataFrame.mk cols ch)),
       none) ∧
    (read_csv fs path schemas ds c).1.map Prod.fst =
      List.range (chunkList c (lines.map parseRow)).length ∧
    (chunkList c (lines.map parseRow)).length = (lines.length + c - 1) / c ∧
    (chunkList c (lines.map parseRow)).flatten = lines.map parseRow ∧
    sizesOk c (if lines.length % c = 0 then c else lines.length % c)
      ((chunkList c (lines.map parseRow)).map List.length) := by
  have hgood : ∀ ch ∈ chunkList c (lines.map parseRow), chunkBad cols ch = false := by
    intro ch hch
    simp only [chunkBad, List.any_eq_false, decide_eq_true_eq, not_lt]
    intro r hr
    have hrl : r ∈ lines.map parseRow := mem_of_mem_chunkList c _ ch r hch hr
    obtain ⟨line, hline, rfl⟩ := List.mem_map.mp hrl
    exact hwf line hline
  have hrc : read_csv fs path schemas ds c =
      ((List.range (chunkList c (lines.map parseRow)).length).zip
        ((chunkList c (lines.map parseRow)).map (fun ch => DataFrame.mk cols ch)),
       none) := by
    simp only [read_csv, hcols, hfile]
    rw [emitChunks_all_good path cols _ 0 hgood, List.range_eq_range']
  refine ⟨hrc, ?_, ?_, ?_, ?_⟩
  · rw [hrc]
    exact List.map_fst_zip _ _ (by simp [List.length_range'])
  · rw [chunkList_length c hc]
    simp
  · exact chunkList_flatten c _
  · have := chunkList_sizesOk c hc (lines.map parseRow)
    simpa using this

/-- Concrete instantiation of the C2 theorem: a 3-row file read with chunk
size 2 yields chunks of sizes 2 and 1 with indices 0 and 1. -/
theorem read_csv_chunking_witness :
    read_csv [("d/w/part-0", some ["a,1", "b,2", "c,3"])]
        "d/w/part-0" [("w", [⟨some "u", some 0⟩, ⟨some "v", some 1⟩])] "w" 2 =
      ((List.range (chunkList 2 ((["a,1", "b,2", "c,3"] : List String).map parseRow)).length).zip
        ((chunkList 2 ((["a,1", "b,2", "c,3"] : List String).map parseRow)).map
          (fun ch => DataFrame.mk ["u", "v"] ch)), none) ∧
    (read_csv [("d/w/part-0", some ["a,1", "b,2", "c,3"])]
        "d/w/part-0" [("w", [⟨some "u", some 0⟩, ⟨some "v", some 1⟩])] "w" 2).1.map Prod.fst =
      List.range (chunkList 2 ((["a,1", "b,2", "c,3"] : List String).map parseRow)).length ∧
    (chunkList 2 ((["a,1", "b,2", "c,3"] : List String).map parseRow)).length =
      ((["a,1", "b,2", "c,3"] : List String).length + 2 - 1) / 2 ∧
    (chunkList 2 ((["a,1", "b,2", "c,3"] : List String).map parseRow)).flatten =
      (["a,1", "b,2", "c,3"] : List String).map parseRow ∧
    sizesOk 2
      (if (["a,1", "b,2", "c,3"] : List String).length % 2 = 0 then 2
       else (["a,1", "b,2", "c,3"] : List String).length % 2)
      ((chunkList 2 ((["a,1", "b,2", "c,3"] : List String).map parseRow)).map List.length) :=
  read_csv_chunking _ _ _ _ _ _ _ (by decide) (by rfl) (by rfl) (by decide)
/-! ### Lemmas about column resolution -/

theorem extractPositions_ok_of_all (descs : List ColDesc)
    (h : ∀ d ∈ descs, d.column_position ≠ none) :
    extractPositions descs =
      .ok (descs.map (fun d => (d.column_position.getD 0, d))) := by
  induction descs with
  | nil => rfl
  | cons d rest ih =>
    obtain ⟨p, hp⟩ := Option.ne_none_iff_exists'.mp (h d (by simp))
    rw [extractPositions, hp, ih (fun x hx => h x (by simp [hx]))]
    simp [Except.map, hp]

theorem extractNames_ok_of_all (l : List (Int × ColDesc))
    (h : ∀ x ∈ l, x.2.column_name ≠ none) :
    extractNames l = .ok (l.map (fun x => (x.1, x.2.column_name.getD ""))) := by
  induction l with
  | nil => rfl
  | cons x rest ih =>
    obtain ⟨n, hn⟩ := Option.ne_none_iff_exists'.mp (h x (by simp))
    obtain ⟨p, d⟩ := x
    have hn2 : d.column_name = some n := hn
    rw [extractNames, hn2, ih (fun y hy => h y (by simp [hy]))]
    simp [Except.map, hn2]

theorem extractPositions_error_of_missing :
    (descs : List ColDesc) → (∃ d ∈ descs, d.column_position = none) →
      extractPositions descs = .error "column_position"
  | [], hex => by simp at hex
  | d :: rest, hex => by
    rw [extractPositions]
    cases hp : d.column_position with
    | none => rfl
    | some p =>
      obtain ⟨dd, hdd, h2⟩ := hex
      rcases List.mem_cons.mp hdd with rfl | hdd2
      · rw [hp] at h2; cases h2
      · rw [extractPositions_error_of_missing rest ⟨dd, hdd2, h2⟩]
        rfl

theorem extractNames_error_of_missing :
    (l : List (Int × ColDesc)) → (∃ x ∈ l, x.2.column_name = none) →
      extractNames l = .error "column_name"
  | [], hex => by simp at hex
  | (p, d) :: rest, hex => by
    rw [extractNames]
    cases hn : d.column_name with
    | none => rfl
    | some n =>
      obtain ⟨y, hy, h2⟩ := hex
      rcases List.mem_cons.mp hy with rfl | hy2
      · simp at h2
        rw [hn] at h2
        cases h2
      · rw [extractNames_error_of_missing rest ⟨y, hy2, h2⟩]
        rfl

theorem extractPositions_error_iff (descs : List ColDesc) (e : String) :
    extractPositions descs = .error e ↔
      e = "column_position" ∧ ∃ d ∈ descs, d.column_position = none := by
  by_cases hall : ∀ d ∈ descs, d.column_position ≠ none
  · rw [extractPositions_ok_of_all descs hall]
    constructor
    · intro h; cases h
    · intro ⟨_, d, hd, h2⟩
      exact absurd h2 (hall d hd)
  · push_neg at hall
    obtain ⟨d0, hd0, hn0⟩ := hall
    have hex : ∃ d ∈ descs, d.column_position = none := ⟨d0, hd0, hn0⟩
    rw [extractPositions_error_of_missing descs hex]
    constructor
    · intro h
      injection h with h2
      exact ⟨h2.symm, hex⟩
    · intro ⟨h1, _⟩
      rw [h1]

theorem extractNames_error_iff (l : List (Int × ColDesc)) (e : String) :
    extractNames l = .error e ↔
      e = "column_name" ∧ ∃ x ∈ l, x.2.column_name = none := by
  by_cases hall : ∀ x ∈ l, x.2.column_name ≠ none
  · rw [extractNames_ok_of_all l hall]
    constructor
    · intro h; cases h
    · intro ⟨_, x, hx, h2⟩
      exact absurd h2 (hall x hx)
  · push_neg at hall
    obtain ⟨x0, hx0, hn0⟩ := hall
    have hex : ∃ x ∈ l, x.2.column_name = none := ⟨x0, hx0, hn0⟩
    rw [extractNames_error_of_missing l hex]
    constructor
    · intro h
      injection h with h2
      exact ⟨h2.symm, hex⟩
    · intro ⟨h1, _⟩
      rw [h1]

/-- Claim C4: for every valid catalog (dataset present, every descriptor
carrying both required fields, positions pairwise distinct so that they
induce a total order) the Column Resolver returns the dataset's column names
in strictly ascending order of their column_position values: the result is
the name projection of the descriptors sorted ascending by position. -/
theorem get_column_names_sorted
    (schemas : Catalog) (ds : String) (descs : List ColDesc)
    (halk : alookup schemas ds = some descs)
    (hpos : ∀ d ∈ descs, d.column_position ≠ none)
    (hname : ∀ d ∈ descs, d.column_name ≠ none)
    (hnodup : (descs.map (fun d => d.column_position.getD 0)).Nodup) :
    ∃ pairs : List (Int × String),
      sortedDescs schemas ds = .ok pairs ∧
      get_column_names schemas ds = .ok (pairs.map Prod.snd) ∧
      List.Sorted (fun a b => a < b) (pairs.map Prod.fst) ∧
      pairs.Perm
        (descs.map (fun d => (d.column_position.getD 0, d.column_name.getD ""))) := by
  have hkey := extractPositions_ok_of_all descs hpos
  set keyed := descs.map (fun d => (d.column_position.getD 0, d)) with hkeyed
  set sortedK := List.insertionSort posLE keyed with hsortedK
  have hperm : sortedK.Perm keyed := List.perm_insertionSort posLE keyed
  have hnameS : ∀ x ∈ sortedK, x.2.column_name ≠ none := by
    intro x hx
    have hxk : x ∈ keyed := hperm.mem_iff.mp hx
    obtain ⟨d, hd, rfl⟩ := List.mem_map.mp hxk
    exact hname d hd
  have hnames := extractNames_ok_of_all sortedK hnameS
  set pairs := sortedK.map (fun x => (x.1, x.2.column_name.getD "")) with hpairs
  have hsd : sortedDescs schemas ds = .ok pairs := by
    simp only [sortedDescs, halk, hkey, bind, Except.bind]
    exact hnames
  refine ⟨pairs, hsd, ?_, ?_, ?_⟩
  · rw [get_column_names, hsd]
    rfl
  · have hsortLE : List.Sorted posLE sortedK := List.sorted_insertionSort posLE keyed
    have hndS : (sortedK.map Prod.fst).Nodup := by
      have hndk : (keyed.map Prod.fst).Nodup := by
        rw [hkeyed, List.map_map]
        exact hnodup
      exact ((hperm.map Prod.fst).symm).nodup hndk
    have hpairLE : List.Pairwise (fun a b : Int × ColDesc => a.1 ≤ b.1) sortedK :=
      hsortLE
    have hpairNE : List.Pairwise (fun a b : Int × ColDesc => a.1 ≠ b.1) sortedK :=
      List.pairwise_map.mp hndS
    have hpairLT : List.Pairwise (fun a b : Int × ColDesc => a.1 < b.1) sortedK :=
      (hpairLE.and hpairNE).imp (fun h => lt_of_le_of_ne h.1 h.2)
    have hfst : pairs.map Prod.fst = sortedK.map (fun x => x.1) := by
      rw [hpairs, List.map_map]
      rfl
    rw [hfst]
    exact List.pairwise_map.mpr hpairLT
  · have := hperm.map (fun x : Int × ColDesc => (x.1, x.2.column_name.getD ""))
    rw [hkeyed, List.map_map] at this
    exact this

/-- Concrete instantiation of the C4 theorem on a three-column catalog with
positions 2, 0, 1. -/
theorem get_column_names_sorted_witness :
    ∃ pairs : List (Int × String),
      sortedDescs
          [("orders", [⟨some "id", some 2⟩, ⟨some "name", some 0⟩,
            ⟨some "amount", some 1⟩])] "orders" = .ok pairs ∧
      get_column_names
          [("orders", [⟨some "id", some 2⟩, ⟨some "name", some 0⟩,
            ⟨some "amount", some 1⟩])] "orders" = .ok (pairs.map Prod.snd) ∧
      List.Sorted (fun a b => a < b) (pairs.map Prod.fst) ∧
      pairs.Perm
        (([⟨some "id", some 2⟩, ⟨some "name", some 0⟩,
            ⟨some "amount", some 1⟩] : List ColDesc).map
          (fun d => (d.column_position.getD 0, d.column_name.getD ""))) :=
  get_column_names_sorted _ _ _ (by rfl) (by decide) (by decide) (by decide)

theorem get_column_names_error_eq (schemas : Catalog) (ds e : String) :
    get_column_names schemas ds = .error e ↔ sortedDescs schemas ds = .error e := by
  rw [get_column_names]
  cases h : sortedDescs schemas ds <;> simp [Except.map]

theorem sortedDescs_some (schemas : Catalog) (ds : String) (descs : List ColDesc)
    (halk : alookup schemas ds = some descs) :
    sortedDescs schemas ds =
      (extractPositions descs).bind
        (fun keyed => extractNames (List.insertionSort posLE keyed)) := by
  simp only [sortedDescs, halk]
  rfl

/-- Claim C8: the Column Resolver fails with the missing-schema-field error
(`KeyError`) exactly when the dataset name is absent from the catalog, or
some descriptor of that dataset lacks `column_position`, or some descriptor
lacks `column_name`; the `KeyError` payload names the offending key
(the dataset name, `column_position`, or `column_name` respectively), and
the failure is an `Except.error`, so no partial column list is returned. -/
theorem get_column_names_error_characterization (schemas : Catalog) (ds : String) :
    ((∃ e, get_column_names schemas ds = .error e) ↔
      (alookup schemas ds = none ∨
        ∃ descs, alookup schemas ds = some descs ∧
          ∃ d ∈ descs, d.column_position = none ∨ d.column_name = none)) ∧
    (∀ e, get_column_names schemas ds = .error e →
      (alookup schemas ds = none ∧ e = ds) ∨
      (∃ descs, alookup schemas ds = some descs ∧
        ((e = "column_position" ∧ ∃ d ∈ descs, d.column_position = none) ∨
         (e = "column_name" ∧ ∃ d ∈ descs, d.column_name = none)))) := by
  cases halk : alookup schemas ds with
  | none =>
    have hsd : sortedDescs schemas ds = .error ds := by
      simp only [sortedDescs, halk]
    constructor
    · constructor
      · intro _; exact Or.inl rfl
      · intro _; exact ⟨ds, (get_column_names_error_eq schemas ds ds).mpr hsd⟩
    · intro e he
      have := (get_column_names_error_eq schemas ds e).mp he
      rw [hsd] at this
      injection this with h2
      exact Or.inl ⟨rfl, h2.symm⟩
  | some descs =>
    have hbind := sortedDescs_some schemas ds descs halk
    rw [← halk]
    by_cases hposall : ∀ d ∈ descs, d.column_position ≠ none
    · have hkey := extractPositions_ok_of_all descs hposall
      set keyed := descs.map (fun d => (d.column_position.getD 0, d)) with hkeyed
      have hperm : (List.insertionSort posLE keyed).Perm keyed :=
        List.perm_insertionSort posLE keyed
      by_cases hnameall : ∀ d ∈ descs, d.column_name ≠ none
      · -- no error at all
        have hnameS : ∀ x ∈ List.insertionSort posLE keyed, x.2.column_name ≠ none := by
          intro x hx
          obtain ⟨d, hd, rfl⟩ := List.mem_map.mp (hperm.mem_iff.mp hx)
          exact hnameall d hd
        have hok : sortedDescs schemas ds =
            .ok ((List.insertionSort posLE keyed).map
              (fun x => (x.1, x.2.column_name.getD ""))) := by
          rw [hbind, hkey]
          simpa [Except.bind] using extractNames_ok_of_all _ hnameS
        constructor
        · constructor
          · intro ⟨e, he⟩
            have := (get_column_names_error_eq schemas ds e).mp he
            rw [hok] at this
            cases this
          · intro h
            rcases h with h | ⟨descs2, hdescs2, d, hd, hmiss⟩
            · rw [halk] at h; cases h
            · rw [halk] at hdescs2
              injection hdescs2 with h2
              subst h2
              rcases hmiss with hmiss | hmiss
              · exact absurd hmiss (hposall d hd)
              · exact absurd hmiss (hnameall d hd)
        · intro e he
          have := (get_column_names_error_eq schemas ds e).mp he
          rw [hok] at this
          cases this
      · -- a column_name is missing
        push_neg at hnameall
        obtain ⟨d0, hd0, hn0⟩ := hnameall
        have hx0 : (d0.column_position.getD 0, d0) ∈ List.insertionSort posLE keyed := by
          exact hperm.mem_iff.mpr (List.mem_map.mpr ⟨d0, hd0, rfl⟩)
        have herr : sortedDescs schemas ds = .error "column_name" := by
          rw [hbind, hkey]
          simpa [Except.bind] using
            extractNames_error_of_missing _ ⟨(d0.column_position.getD 0, d0), hx0, hn0⟩
        constructor
        · constructor
          · intro _
            exact Or.inr ⟨descs, halk, d0, hd0, Or.inr hn0⟩
          · intro _
            exact ⟨"column_name",
              (get_column_names_error_eq schemas ds _).mpr herr⟩
        · intro e he
          have := (get_column_names_error_eq schemas ds e).mp he
          rw [herr] at this
          injection this with h2
          exact Or.inr ⟨descs, halk, Or.inr ⟨h2.symm, d0, hd0, hn0⟩⟩
    · -- a column_position is missing
      push_neg at hposall
      obtain ⟨d0, hd0, hp0⟩ := hposall
      have herr : sortedDescs schemas ds = .error "column_position" := by
        rw [hbind, extractPositions_error_of_missing descs ⟨d0, hd0, hp0⟩]
        rfl
      constructor
      · constructor
        · intro _
          exact Or.inr ⟨descs, halk, d0, hd0, Or.inl hp0⟩
        · intro _
          exact ⟨"column_position",
            (get_column_names_error_eq schemas ds _).mpr herr⟩
      · intro e he
        have := (get_column_names_error_eq schemas ds e).mp he
        rw [herr] at this
        injection this with h2
        exact Or.inr ⟨descs, halk, Or.inl ⟨h2.symm, d0, hd0, hp0⟩⟩

/-- Concrete instantiation of the C8 theorem: a catalog whose only dataset
has a descriptor missing its position does produce a resolver error. -/
theorem get_column_names_error_characterization_witness :
    ∃ e, get_column_names [("bad", [⟨some "x", none⟩])] "bad" = .error e :=
  (get_column_names_error_characterization [("bad", [⟨some "x", none⟩])] "bad").1.mpr
    (Or.inr ⟨[⟨some "x", none⟩], rfl, ⟨some "x", none⟩, by simp, Or.inl rfl⟩)

/-! ### Claims about the Dataset Loader and Table Writer -/

/-- Claim C5: for every dataset with zero source files matching `part-*`
under `baseDir/datasetName/`, the Dataset Loader fails with the
no-source-files error (`ValueError`) and performs zero database writes: the
database is returned untouched and the error is raised before any file is
read or chunk written. -/
theorem db_loader_no_source_files
    (fs : FileSys) (schemas : Catalog) (ds base : String) (c : Nat)
    (failSet : String → Nat → Bool) (db0 : DB)
    (h : globFiles fs base ds = []) :
    db_loader fs schemas ds base c failSet db0 =
      ({ db := db0, succWrites := 0, errLogs := 0 },
        some (.noSourceFiles ds)) := by
  simp [db_loader, h]

/-- Concrete instantiation of the C5 theorem: a filesystem holding only an
unrelated file yields the no-source-files error and an unchanged database. -/
theorem db_loader_no_source_files_witness :
    db_loader [("elsewhere/readme", some ["x"])] [] "sales" "data" 5
        (fun _ _ => false) [("t", [[("a", "b")]])] =
      ({ db := [("t", [[("a", "b")]])], succWrites := 0, errLogs := 0 },
        some (.noSourceFiles "sales")) :=
  db_loader_no_source_files _ _ _ _ _ _ _ (by rfl)

/-- Counterexample to claim C6 as stated: with two globbed files where the
first cannot be opened (deleted between listing and open), `db_loader` does
NOT move on to the second file — the `FileNotFoundError` re-raised by the
reader escapes `db_loader`, the second file's row `c,3` is never written,
and the whole dataset load aborts with zero writes. -/
theorem db_loader_open_failure_no_next_file :
    db_loader
        [("data/sales/part-000", none), ("data/sales/part-001", some ["c,3"])]
        [("sales", [⟨some "x", some 0⟩, ⟨some "y", some 1⟩])]
        "sales" "data" 10 (fun _ _ => false) [] =
      ({ db := [], succWrites := 0, errLogs := 0 },
        some (.readAbort (.fileNotFound "data/sales/part-000"))) := by
  rfl

/-- An error escaping the reader for file `f0` (after a clean run over the
files before it) makes the file loop return that error, and its outcome is
independent of whatever files follow `f0`: they are never processed. -/
theorem processFiles_abort_ignores_rest (fs : FileSys) (schemas : Catalog)
    (ds : String) (c : Nat) (failSet : String → Nat → Bool) (f0 : String)
    (e : ReadErr) (he : (read_csv fs f0 schemas ds c).2 = some e) :
    ∀ (pre rest : List String) (st : LoadState),
      (∀ f ∈ pre, (read_csv fs f schemas ds c).2 = none) →
      processFiles fs schemas ds c failSet (pre ++ f0 :: rest) st =
        processFiles fs schemas ds c failSet (pre ++ [f0]) st ∧
      (processFiles fs schemas ds c failSet (pre ++ [f0]) st).2 = some e
  | [], rest, st, _ => by
    simp only [List.nil_append]
    constructor
    · simp only [processFiles, he]
    · simp only [processFiles, he]
  | p :: pre, rest, st, hclean => by
    have hp : (read_csv fs p schemas ds c).2 = none := hclean p (by simp)
    have ih := processFiles_abort_ignores_rest fs schemas ds c failSet f0 e he
      pre rest
      (processChunks ds p failSet (read_csv fs p schemas ds c).1 st)
      (fun x hx => hclean x (by simp [hx]))
    simp only [List.cons_append]
    constructor
    · simp only [processFiles, hp]
      exact ih.1
    · simp only [processFiles, hp]
      exact ih.2

/-- Claim C6 (amended): a failure occurring before any chunk of a file is
yielded (file-not-found when the file is opened) is not caught by
`db_loader`; instead of moving on to the next file of the same dataset, it
aborts the ENTIRE dataset load: the `FileNotFoundError` propagates out of
the Dataset Loader, and the loader's outcome is exactly what it would be if
the files listed after the failing one did not exist — they are never
opened or written.  (With the failing file first, the dataset sees zero
writes.) -/
theorem db_loader_open_failure_aborts_dataset
    (fs : FileSys) (schemas : Catalog) (ds base : String) (c : Nat)
    (failSet : String → Nat → Bool) (db0 : DB) (f0 : String)
    (pre rest : List String) (cols : List String)
    (hglob : globFiles fs base ds = pre ++ f0 :: rest)
    (hpre : ∀ f ∈ pre, (read_csv fs f schemas ds c).2 = none)
    (hcols : get_column_names schemas ds = .ok cols)
    (hopen : readLines fs f0 = none) :
    db_loader fs schemas ds base c failSet db0 =
      ((processFiles fs schemas ds c failSet (pre ++ [f0])
          { db := db0, succWrites := 0, errLogs := 0 }).1,
        some (.readAbort (.fileNotFound f0))) := by
  have he : (read_csv fs f0 schemas ds c).2 = some (.fileNotFound f0) := by
    simp [read_csv, hcols, hopen]
  have habort := processFiles_abort_ignores_rest fs schemas ds c failSet f0
    (.fileNotFound f0) he pre rest
    { db := db0, succWrites := 0, errLogs := 0 } hpre
  have hne : ¬(globFiles fs base ds).isEmpty = true := by
    rw [hglob]
    cases pre <;> simp
  rw [db_loader]
  simp only [if_neg hne]
  rw [hglob, habort.1]
  rw [Prod.ext_iff]
  exact ⟨rfl, by simp [habort.2]⟩

/-- Concrete instantiation of the amended C6 theorem: the first file is
clean, the second cannot be opened, and the third is never processed — the
load aborts with the second file's error after writing only the first
file's chunk. -/
theorem db_loader_open_failure_aborts_dataset_witness :
    db_loader
        [("data/v/part-000", some ["a,1"]), ("data/v/part-001", none),
         ("data/v/part-002", some ["d,4"])]
        [("v", [⟨some "x", some 0⟩, ⟨some "y", some 1⟩])]
        "v" "data" 7 (fun _ _ => false) [] =
      ((processFiles
          [("data/v/part-000", some ["a,1"]), ("data/v/part-001", none),
           ("data/v/part-002", some ["d,4"])]
          [("v", [⟨some "x", some 0⟩, ⟨some "y", some 1⟩])]
          "v" 7 (fun _ _ => false)
          (["data/v/part-000"] ++ ["data/v/part-001"])
          { db := [], succWrites := 0, errLogs := 0 }).1,
        some (.readAbort (.fileNotFound "data/v/part-001"))) :=
  db_loader_open_failure_aborts_dataset _ _ _ _ _ _ _ "data/v/part-001"
    ["data/v/part-000"] ["data/v/part-002"] ["x", "y"]
    (by rfl) (by decide) (by rfl) (by rfl)

/-- Claim C10: inside the Chunked File Reader, every raised error other than
file-not-found and parse errors — in particular the missing-schema-field
`KeyError` raised by column resolution, which runs inside the reader's
`try` — is caught by the catch-all branch and re-raised as a plain generic
`Exception` (`ReadErr.genericExc`) whose message is the fixed generic text
around the original error, so the caller cannot distinguish a
schema-authoring error from any other unexpected read failure by its type. -/
theorem read_csv_wraps_schema_error
    (fs : FileSys) (path : String) (schemas : Catalog) (ds : String) (c : Nat)
    (k : String)
    (hk : get_column_names schemas ds = .error k) :
    read_csv fs path schemas ds c =
      ([], some (.genericExc (genericReadMsg (keyErrorStr k)))) := by
  simp [read_csv, hk]

/-- Concrete instantiation of the C10 theorem: a catalog descriptor missing
`column_position` surfaces as the generic exception, not as a distinct
error type. -/
theorem read_csv_wraps_schema_error_witness :
    read_csv [("data/b/part-0", some ["1,2"])] "data/b/part-0"
        [("b", [⟨some "x", none⟩])] "b" 3 =
      ([], some (.genericExc (genericReadMsg (keyErrorStr "column_position")))) :=
  read_csv_wraps_schema_error _ _ _ _ _ "column_position" (by rfl)

/-- Claim C9: an empty-string dataset selector (and likewise an empty list
or an absent selector) is falsy in `main`, so it resolves to the full set of
dataset names in the catalog, in catalog iteration order, rather than
selecting a dataset named the empty string or failing. -/
theorem empty_selector_resolves_all (schemas : Catalog) :
    resolve_ds_names schemas (.single "") = schemas.map Prod.fst ∧
    resolve_ds_names schemas (.multi []) = schemas.map Prod.fst ∧
    resolve_ds_names schemas .absent = schemas.map Prod.fst := by
  refine ⟨?_, ?_, ?_⟩ <;> rfl

/-- The (index, chunk) pairs the reader yields for one file. -/
def fileYields (fs : FileSys) (schemas : Catalog) (ds : String) (c : Nat)
    (f : String) : List (Nat × DataFrame) :=
  (read_csv fs f schemas ds c).1

/-- How many of the yielded chunks of file `f` the database rejects. -/
def chunkFailCount (failSet : String → Nat → Bool) (f : String)
    (Y : List (Nat × DataFrame)) : Nat :=
  (Y.filter (fun p => failSet f p.1)).length

/-- How many of the yielded chunks of file `f` the database accepts. -/
def chunkSuccCount (failSet : String → Nat → Bool) (f : String)
    (Y : List (Nat × DataFrame)) : Nat :=
  (Y.filter (fun p => !(failSet f p.1))).length

/-- Total chunks yielded across a file list. -/
def totalChunkCount (fs : FileSys) (schemas : Catalog) (ds : String) (c : Nat)
    (files : List String) : Nat :=
  (files.map (fun f => (fileYields fs schemas ds c f).length)).sum

/-- Total rejected writes across a file list. -/
def totalFailCount (fs : FileSys) (schemas : Catalog) (ds : String) (c : Nat)
    (failSet : String → Nat → Bool) (files : List String) : Nat :=
  (files.map (fun f => chunkFailCount failSet f (fileYields fs schemas ds c f))).sum

/-- Total accepted writes across a file list. -/
def totalSuccCount (fs : FileSys) (schemas : Catalog) (ds : String) (c : Nat)
    (failSet : String → Nat → Bool) (files : List String) : Nat :=
  (files.map (fun f => chunkSuccCount failSet f (fileYields fs schemas ds c f))).sum

theorem length_filter_split {α : Type} (p : α → Bool) :
    ∀ l : List α, (l.filter p).length + (l.filter (fun a => !(p a))).length = l.length
  | [] => rfl
  | a :: l => by
    have ih := length_filter_split p l
    cases hp : p a <;> simp [List.filter_cons, hp] at ih ⊢ <;> omega

theorem chunk_counts_split (failSet : String → Nat → Bool) (f : String)
    (Y : List (Nat × DataFrame)) :
    chunkFailCount failSet f Y + chunkSuccCount failSet f Y = Y.length :=
  length_filter_split _ Y

theorem total_counts_split (fs : FileSys) (schemas : Catalog) (ds : String)
    (c : Nat) (failSet : String → Nat → Bool) :
    ∀ files : List String,
      totalFailCount fs schemas ds c failSet files +
        totalSuccCount fs schemas ds c failSet files =
        totalChunkCount fs schemas ds c files
  | [] => rfl
  | f :: rest => by
    have ih := total_counts_split fs schemas ds c failSet rest
    have hf := chunk_counts_split failSet f (fileYields fs schemas ds c f)
    simp only [totalFailCount, totalSuccCount, totalChunkCount, List.map_cons,
      List.sum_cons] at ih ⊢
    omega

/-- Per-chunk accounting of the write loop: every rejected write is logged
and skipped, every accepted write is counted, and the loop never raises. -/
theorem processChunks_counts (ds f : String) (failSet : String → Nat → Bool) :
    ∀ (Y : List (Nat × DataFrame)) (st : LoadState),
      (processChunks ds f failSet Y st).succWrites =
        st.succWrites + chunkSuccCount failSet f Y ∧
      (processChunks ds f failSet Y st).errLogs =
        st.errLogs + chunkFailCount failSet f Y
  | [], st => by simp [processChunks, chunkSuccCount, chunkFailCount]
  | (idx, df) :: rest, st => by
    have ih := processChunks_counts ds f failSet rest
    cases hb : failSet f idx with
    | false =>
      have hstep : processChunks ds f failSet ((idx, df) :: rest) st =
          processChunks ds f failSet rest
            ⟨dbAppend st.db (ds ++ "_test") (dfToRows df),
              st.succWrites + 1, st.errLogs⟩ := by
        simp [processChunks, to_sql, hb]
      obtain ⟨hs, he⟩ :=
        ih ⟨dbAppend st.db (ds ++ "_test") (dfToRows df),
          st.succWrites + 1, st.errLogs⟩
      rw [hstep]
      constructor
      · rw [hs]
        simp [chunkSuccCount, List.filter_cons, hb]
        omega
      · rw [he]
        simp [chunkFailCount, List.filter_cons, hb]
    | true =>
      have hstep : processChunks ds f failSet ((idx, df) :: rest) st =
          processChunks ds f failSet rest
            ⟨st.db, st.succWrites, st.errLogs + 1⟩ := by
        simp [processChunks, to_sql, hb]
      obtain ⟨hs, he⟩ := ih ⟨st.db, st.succWrites, st.errLogs + 1⟩
      rw [hstep]
      constructor
      · rw [hs]
        simp [chunkSuccCount, List.filter_cons, hb]
      · rw [he]
        simp [chunkFailCount, List.filter_cons, hb]
        omega

/-- File-loop accounting when no error escapes any reader: the loop visits
every file, never raises, and accumulates the success and failure counts. -/
theorem processFiles_clean (fs : FileSys) (schemas : Catalog) (ds : String)
    (c : Nat) (failSet : String → Nat → Bool) :
    ∀ (files : List String) (st : LoadState),
      (∀ f ∈ files, (read_csv fs f schemas ds c).2 = none) →
      (processFiles fs schemas ds c failSet files st).2 = none ∧
      (processFiles fs schemas ds c failSet files st).1.succWrites =
        st.succWrites + totalSuccCount fs schemas ds c failSet files ∧
      (processFiles fs schemas ds c failSet files st).1.errLogs =
        st.errLogs + totalFailCount fs schemas ds c failSet files
  | [], st, _ => by
    simp [processFiles, totalSuccCount, totalFailCount]
  | f :: rest, st, hclean => by
    have hf : (read_csv fs f schemas ds c).2 = none := hclean f (by simp)
    have hcc := processChunks_counts ds f failSet (read_csv fs f schemas ds c).1
      st
    have ih := processFiles_clean fs schemas ds c failSet rest
      (processChunks ds f failSet (read_csv fs f schemas ds c).1 st)
      (fun x hx => hclean x (by simp [hx]))
    simp only [processFiles, hf] at *
    refine ⟨ih.1, ?_, ?_⟩
    · rw [ih.2.1, hcc.1]
      simp only [totalSuccCount, List.map_cons, List.sum_cons, fileYields]
      omega
    · rw [ih.2.2, hcc.2]
      simp only [totalFailCount, List.map_cons, List.sum_cons, fileYields]
      omega

/-- Counterexample to claim C1 as stated: parse failures are NOT isolated.
The first file's second chunk (chunk size 1) holds the row `b,2,9` with
three fields against two columns, so iterating the reader raises
`ParserError` after chunk 0; the failure is raised at the `for` line of
`db_loader`, outside the per-chunk `try`, so it is not caught or logged
(`errLogs = 0`), the remaining chunks of the file are skipped, the sibling
file `part-001` is never written, and the error escapes `db_loader` — only
1 of the dataset's 3 chunks is written instead of all of them. -/
theorem db_loader_parse_failure_aborts :
    db_loader
        [("data/sales/part-000", some ["a,1", "b,2,9"]),
         ("data/sales/part-001", some ["c,3"])]
        [("sales", [⟨some "x", some 0⟩, ⟨some "y", some 1⟩])]
        "sales" "data" 1 (fun _ _ => false) [] =
      ({ db := [("sales_test", [[("x", "a"), ("y", "1")]])],
         succWrites := 1, errLogs := 0 },
        some (.readAbort (.parserError "data/sales/part-000"))) := by
  rfl

/-- Claim C1 (amended): per-chunk failure isolation holds for WRITE failures
only.  When every file of the dataset reads cleanly (no parse or open
failure) and exactly one chunk's database write fails, the failure is
caught and logged and processing continues: every other chunk of every file
is still written (total successful writes = total chunks - 1), exactly one
error is logged, and no error escapes the Dataset Loader.  (A parse failure,
by contrast, is raised by the reader generator outside the per-chunk `try`
and aborts the remaining chunks, sibling files, and the whole dataset load —
see the counterexample.) -/
theorem db_loader_write_failure_isolated
    (fs : FileSys) (schemas : Catalog) (ds base : String) (c : Nat)
    (failSet : String → Nat → Bool) (db0 : DB)
    (hne : globFiles fs base ds ≠ [])
    (hclean : ∀ f ∈ globFiles fs base ds, (read_csv fs f schemas ds c).2 = none)
    (hone : totalFailCount fs schemas ds c failSet (globFiles fs base ds) = 1) :
    (db_loader fs schemas ds base c failSet db0).2 = none ∧
    (db_loader fs schemas ds base c failSet db0).1.succWrites =
      totalChunkCount fs schemas ds c (globFiles fs base ds) - 1 ∧
    (db_loader fs schemas ds base c failSet db0).1.errLogs = 1 := by
  have hpf := processFiles_clean fs schemas ds c failSet (globFiles fs base ds)
    { db := db0, succWrites := 0, errLogs := 0 } hclean
  have hsplit := total_counts_split fs schemas ds c failSet (globFiles fs base ds)
  have hload : db_loader fs schemas ds base c failSet db0 =
      ((processFiles fs schemas ds c failSet (globFiles fs base ds)
          { db := db0, succWrites := 0, errLogs := 0 }).1,
        (processFiles fs schemas ds c failSet (globFiles fs base ds)
          { db := db0, succWrites := 0, errLogs := 0 }).2.map .readAbort) := by
    rw [db_loader]
    simp only [List.isEmpty_iff, hne, if_false]
  rw [hload]
  refine ⟨?_, ?_, ?_⟩
  · simp [hpf.1]
  · simp only [hpf.2.1]
    omega
  · simp only [hpf.2.2]
    omega

/-- Concrete instantiation of the amended C1 theorem: two clean files with
four chunks in total; the write of chunk 1 of the first file fails; three
writes from four chunks succeed and one error is logged. -/
theorem db_loader_write_failure_isolated_witness :
    (db_loader
        [("data/sales/part-000", some ["a,1", "b,2", "c,3"]),
         ("data/sales/part-001", some ["d,4"])]
        [("sales", [⟨some "x", some 0⟩, ⟨some "y", some 1⟩])]
        "sales" "data" 1
        (fun f i => f == "data/sales/part-000" && i == 1) []).2 = none ∧
    (db_loader
        [("data/sales/part-000", some ["a,1", "b,2", "c,3"]),
         ("data/sales/part-001", some ["d,4"])]
        [("sales", [⟨some "x", some 0⟩, ⟨some "y", some 1⟩])]
        "sales" "data" 1
        (fun f i => f == "data/sales/part-000" && i == 1) []).1.succWrites =
      totalChunkCount
        [("data/sales/part-000", some ["a,1", "b,2", "c,3"]),
         ("data/sales/part-001", some ["d,4"])]
        [("sales", [⟨some "x", some 0⟩, ⟨some "y", some 1⟩])]
        "sales" 1
        (globFiles
          [("data/sales/part-000", some ["a,1", "b,2", "c,3"]),
           ("data/sales/part-001", some ["d,4"])] "data" "sales") - 1 ∧
    (db_loader
        [("data/sales/part-000", some ["a,1", "b,2", "c,3"]),
         ("data/sales/part-001", some ["d,4"])]
        [("sales", [⟨some "x", some 0⟩, ⟨some "y", some 1⟩])]
        "sales" "data" 1
        (fun f i => f == "data/sales/part-000" && i == 1) []).1.errLogs = 1 :=
  db_loader_write_failure_isolated _ _ _ _ _ _ _
    (by decide) (by decide) (by rfl)

/-- Claim C3: round-trip through the whole pipeline.  For a dataset whose
catalog lists columns id, name, amount at positions 2, 0, 1 (resolved column
order [name, amount, id]) and a headerless 2-row source file with raw lines
`a,1,100` and `b,2,200`, loading the dataset appends exactly the two
database rows (name "a", amount "1", id "100") and
(name "b", amount "2", id "200") to the destination table `orders_test`. -/
theorem round_trip_concrete :
    get_column_names
        [("orders", [⟨some "id", some 2⟩, ⟨some "name", some 0⟩,
          ⟨some "amount", some 1⟩])] "orders" = .ok ["name", "amount", "id"] ∧
    db_loader [("data/orders/part-000", some ["a,1,100", "b,2,200"])]
        [("orders", [⟨some "id", some 2⟩, ⟨some "name", some 0⟩,
          ⟨some "amount", some 1⟩])]
        "orders" "data" 10000 (fun _ _ => false) [] =
      ({ db := [("orders_test",
          [[("name", "a"), ("amount", "1"), ("id", "100")],
           [("name", "b"), ("amount", "2"), ("id", "200")]])],
         succWrites := 1, errLogs := 0 }, none) := by
  constructor
  · rfl
  · rfl

/-- Append leaves every table's existing rows in place and adds the new
rows at the end of the destination table only. -/
theorem tableRows_dbAppend (t : String) (rows : List DBRow) :
    (d : DB) → (u : String) →
      tableRows (dbAppend d t rows) u =
        tableRows d u ++ (if u = t then rows else [])
  | [], u => by
    show (alookup [(t, rows)] u).getD [] =
      (alookup ([] : DB) u).getD [] ++ (if u = t then rows else [])
    by_cases hu : u = t
    · subst hu
      simp [alookup]
    · have h1 : ¬t = u := fun h => hu h.symm
      simp [alookup, h1, hu]
  | (k, v) :: rest, u => by
    have ih := tableRows_dbAppend t rows rest u
    show tableRows (if k = t then (k, v ++ rows) :: rest
        else (k, v) :: dbAppend rest t rows) u =
      tableRows ((k, v) :: rest) u ++ (if u = t then rows else [])
    by_cases hk : k = t
    · rw [if_pos hk]
      subst hk
      show (if k = u then some (v ++ rows) else alookup rest u).getD [] =
        (if k = u then some v else alookup rest u).getD [] ++
          (if u = k then rows else [])
      by_cases hu : k = u
      · subst hu
        simp
      · have hu2 : ¬u = k := fun h => hu h.symm
        simp [hu, hu2]
    · rw [if_neg hk]
      show (if k = u then some v else alookup (dbAppend rest t rows) u).getD [] =
        (if k = u then some v else alookup rest u).getD [] ++
          (if u = t then rows else [])
      by_cases hu : k = u
      · subst hu
        simp [hk]
      · rw [if_neg hu, if_neg hu]
        exact ih

/-- Claim C7: the Table Writer append is not idempotent and never destroys
existing rows.  A successful `to_sql` call appends the chunk's rows to the
destination table; every other table, and the pre-existing rows of the
destination, are left exactly as they were (the old contents are a leading
segment of the new); writing the same chunk twice appends its rows twice,
so the destination grows by twice the chunk size — duplicates occur rather
than being prevented. -/
theorem to_sql_append_not_idempotent
    (db : DB) (t t2 : String) (df : DataFrame) :
    to_sql t df db false = .ok (dbAppend db t (dfToRows df), true) ∧
    tableRows (dbAppend db t (dfToRows df)) t2 =
      tableRows db t2 ++ (if t2 = t then dfToRows df else []) ∧
    tableRows (dbAppend (dbAppend db t (dfToRows df)) t (dfToRows df)) t =
      tableRows db t ++ dfToRows df ++ dfToRows df ∧
    (tableRows (dbAppend (dbAppend db t (dfToRows df)) t (dfToRows df)) t).length =
      (tableRows db t).length + 2 * (dfToRows df).length := by
  refine ⟨rfl, tableRows_dbAppend t (dfToRows df) db t2, ?_, ?_⟩
  · rw [tableRows_dbAppend, tableRows_dbAppend]
    simp
  · rw [tableRows_dbAppend, tableRows_dbAppend]
    simp [List.length_append]
    ring
